import Mathlib

/-!
Verification of the close-api-scripts data-access layer.

The repository's scripts call a `CloseApiWrapper` class that provides three
core operations: a schema resolver (`get_custom_field_id`,
`get_prefixed_custom_field_id`), a paginated fetcher (`search` / `get_all`),
and a batch write executor (`put_all` / `delete_all`).  The wrapper's own
source is not part of this repository checkout; only its call sites are
(`src/scripts/*.py`).  The definitions below therefore embed the core from
the specification's description of those operations, while
`toggleMain` embeds, statement by statement, the `main` function of
`src/scripts/toggle_opportunity_discounts.py`, which is present in full.

Machine-level conventions: records and payloads are opaque string-keyed
mappings, embedded as association lists; fallible operations return
`Except`; the within-slice concurrency of the executor is embedded by an
explicit arrival-order function `arrive` that reorders a slice's outcomes
(the theorems assume only that it is a permutation); the fetcher's loop is
embedded with explicit fuel, and termination statements are phrased as
"enough fuel is never exhausted".
-/

/-- Modelled from the spec: a Record is "an opaque mapping of field
name/identifier to value"; the core never interprets its contents. -/
abbrev Record := List (String × String)

/-- Modelled from the spec: a write payload is "an opaque mapping of field
identifiers to new values". -/
abbrev Payload := List (String × String)

/-- Modelled from the spec: the batch write operation is either `update`
(PUT-style, carrying the payload) or `delete` (DELETE-style, ignoring it). -/
inductive Op
  | update
  | delete
deriving DecidableEq, Repr

/-- Modelled from the spec: a WriteRequest is a `(target_identifier, payload)`
pair, immutable once submitted to the executor. -/
structure WriteRequest where
  target_identifier : String
  payload : Payload
deriving DecidableEq, Repr

/-- Modelled from the spec: the per-request result of one Transport call —
a 2xx response with the returned record, a validation-style 4xx response
with structured field-level errors, or a transport-level exception. -/
inductive TransportResult
  | ok (returned_record : Record)
  | validationError (error_detail : String)
  | transportError (error_detail : String)
deriving DecidableEq, Repr

/-- Modelled from the spec: a WriteOutcome is either
`Success(target_identifier, returned_record)` or
`Failure(target_identifier, payload, error_detail)`. -/
inductive WriteOutcome
  | success (target_identifier : String) (returned_record : Record)
  | failure (target_identifier : String) (payload : Payload) (error_detail : String)
deriving DecidableEq, Repr

/-- Modelled from the spec: the target_identifier carried by an outcome. -/
def WriteOutcome.target : WriteOutcome → String
  | .success t _ => t
  | .failure t _ _ => t

/-- Modelled from the spec: an outcome is a success. -/
def isSuccess : WriteOutcome → Bool
  | .success _ _ => true
  | .failure _ _ _ => false

/-- Modelled from the spec: an outcome is a failure. -/
def isFailure : WriteOutcome → Bool
  | .success _ _ => false
  | .failure _ _ _ => true

/-- Modelled from the spec: classification of one request's Transport result
(step 4 of the executor algorithm): a 2xx response is a Success carrying the
returned Record; a validation-style 4xx response is a Failure carrying the
original request plus the structured error body; a transport-level exception
is a Failure carrying the original request plus the raw error.  The
Transport is embedded as a function from the operation and the request to
the result of its one HTTP call. -/
def classifyRequest (op : Op) (transport : Op → WriteRequest → TransportResult)
    (r : WriteRequest) : WriteOutcome :=
  match transport op r with
  | .ok rec => .success r.target_identifier rec
  | .validationError e => .failure r.target_identifier r.payload e
  | .transportError e => .failure r.target_identifier r.payload e

/-- Modelled from the spec: partition of the request sequence "into
consecutive slices of at most slice_size" (step 1 of the executor
algorithm).  Structural fuel version; the fuel is the list length, which
always suffices because every step consumes at least one element. -/
def sliceListAux (n : Nat) : Nat → List WriteRequest → List (List WriteRequest)
  | 0, _ => []
  | _, [] => []
  | fuel + 1, x :: xs => (x :: xs.take (n - 1)) :: sliceListAux n fuel (xs.drop (n - 1))

/-- Modelled from the spec: the slice partition of a request list. -/
def sliceList (n : Nat) (l : List WriteRequest) : List (List WriteRequest) :=
  sliceListAux n l.length l

/-- Modelled from the spec: dispatch of one slice — one Transport call per
request, concurrently.  The outcomes of the concurrent calls arrive in an
order chosen by the scheduler, embedded as the reordering function
`arrive`; the executor's collections are built in this arrival order. -/
def processSlice (transport : Op → WriteRequest → TransportResult)
    (arrive : List WriteOutcome → List WriteOutcome) (op : Op)
    (slice : List WriteRequest) : List WriteOutcome :=
  arrive (slice.map (classifyRequest op transport))

/-- Modelled from the spec: the slice loop (steps 2, 3 and 5 of the executor
algorithm): slices run strictly in sequence; after a slice settles, if the
caller-supplied fail-fast override is set and the slice produced a failure,
the not-yet-dispatched slices are cancelled.  Returns the outcomes in
arrival order together with the number of slices actually dispatched. -/
def runSlices (transport : Op → WriteRequest → TransportResult)
    (arrive : List WriteOutcome → List WriteOutcome) (op : Op)
    (failFast : Bool) : List (List WriteRequest) → List WriteOutcome × Nat
  | [] => ([], 0)
  | s :: rest =>
    let outs := processSlice transport arrive op s
    if failFast && outs.any isFailure then
      (outs, 1)
    else
      let r := runSlices transport arrive op failFast rest
      (outs ++ r.1, r.2 + 1)

/-- Modelled from the spec: the configuration error raised when
`slice_size <= 0` ("rejected before dispatch"). -/
inductive ExecError
  | badSliceSize
deriving DecidableEq, Repr

/-- Modelled from the spec: the Batch Write Executor's
`execute(requests, op, slice_size) -> (successes, failures)`.  A
non-positive slice size is a configuration error rejected synchronously;
otherwise the requests are partitioned into slices, each slice is
dispatched concurrently, and the arrival-ordered outcomes are split into
the successes and failures collections.  `failFast` is the caller-supplied
"fail fast" override of step 5 (off by default). -/
def execute (transport : Op → WriteRequest → TransportResult)
    (arrive : List WriteOutcome → List WriteOutcome) (op : Op)
    (failFast : Bool) (slice_size : Nat) (requests : List WriteRequest) :
    Except ExecError (List WriteOutcome × List WriteOutcome) :=
  if slice_size = 0 then
    .error .badSliceSize
  else
    let outs := (runSlices transport arrive op failFast (sliceList slice_size requests)).1
    .ok (outs.partition isSuccess)

/-- Modelled from the spec: a Page is "an ordered sequence of records plus
an optional continuation cursor; cursor absence signals exhaustion". -/
structure Page where
  records : List Record
  cursor : Option String
deriving DecidableEq, Repr

/-- Modelled from the spec: the remote system's reply to one page request —
a Page, or a transport-level error. -/
inductive FetchResponse
  | page (p : Page)
  | fail (error : String)
deriving DecidableEq, Repr

/-- Modelled from the spec: the overall result of a fetch — the accumulated
record sequence, a propagated transport error, or the fatal
ProtocolViolation raised on a non-advancing cursor.  `outOfFuel` is the
embedding's marker for an exhausted fuel bound; the termination theorem
shows it is never reached when the remote's cursors advance. -/
inductive FetchResult
  | ok (records : List Record)
  | transportError (error : String)
  | protocolViolation
  | outOfFuel
deriving DecidableEq, Repr

/-- Modelled from the spec: "the accumulator has not yet reached
results_limit (if set)". -/
def limitReached (results_limit : Option Nat) (len : Nat) : Bool :=
  match results_limit with
  | none => false
  | some m => decide (m ≤ len)

/-- Modelled from the spec: "results_limit truncation keeps at most that
many leading records". -/
def truncate (results_limit : Option Nat) (l : List Record) : List Record :=
  match results_limit with
  | none => l
  | some m => l.take m

/-- Modelled from the spec: the fetch loop.  Issue a request carrying the
current cursor; append the returned page's records to the accumulator; if
the page has no continuation cursor, or the accumulator has reached
`results_limit`, stop with the (truncated) accumulator; if the new cursor
is identical to the one just used — two consecutive pages carrying the same
cursor — abort with ProtocolViolation rather than loop; otherwise carry the
cursor forward.  A transport error on any page aborts the whole fetch.
Returns the result together with the number of page requests issued. -/
def fetchLoop (remote : Option String → FetchResponse) (results_limit : Option Nat) :
    Nat → Option String → List Record → Nat → FetchResult × Nat
  | 0, _, _, count => (.outOfFuel, count)
  | fuel + 1, cursor, acc, count =>
    match remote cursor with
    | .fail e => (.transportError e, count + 1)
    | .page p =>
      match p.cursor with
      | none => (.ok (truncate results_limit (acc ++ p.records)), count + 1)
      | some c =>
        if limitReached results_limit (acc ++ p.records).length then
          (.ok (truncate results_limit (acc ++ p.records)), count + 1)
        else if cursor = some c then
          (.protocolViolation, count + 1)
        else
          fetchLoop remote results_limit fuel (some c) (acc ++ p.records) (count + 1)

/-- Modelled from the spec: the Paginated Fetcher's
`fetch_all(object_type, query, sort, fields, page_size, results_limit)`.
The query/sort/fields/page-size arguments are opaque pass-through data
folded into the `remote` function (the Transport applied to the already
built request); the fetch starts with no cursor, an empty accumulator and
zero issued requests. -/
def fetch_all (remote : Option String → FetchResponse)
    (results_limit : Option Nat) (fuel : Nat) : FetchResult × Nat :=
  fetchLoop remote results_limit fuel none [] 0

/-- Modelled from the spec: the remote system "enforces a monotonically
advancing cursor" — embedded as the existence of a rank that strictly
decreases along every continuation cursor the remote hands out. -/
def Advancing (remote : Option String → FetchResponse) (rank : Option String → Nat) : Prop :=
  ∀ cur p, remote cur = FetchResponse.page p →
    ∀ c, p.cursor = some c → rank (some c) < rank cur

/-- Modelled from the spec: the Schema Resolver's cache — a mapping from
object_type to the fetched catalog (human name to Identifier), populated
once per object_type for the process lifetime. -/
structure Resolver where
  cache : List (String × List (String × String))
deriving DecidableEq, Repr

/-- Modelled from the spec: `resolve(object_type, human_name) -> Identifier`.
On a cache miss for the object_type the full catalog is fetched in one call
(`catalog` embeds the Transport: it returns the catalog or a transport
error, which propagates) and cached; the point lookup then reads the cached
catalog.  A missing name yields the sentinel `none`, never an error.
Returns the lookup result, the updated resolver state, and the number of
catalog fetches performed by this call (0 or 1). -/
def resolve (catalog : String → Except String (List (String × String)))
    (st : Resolver) (object_type name : String) :
    Except String (Option String × Resolver × Nat) :=
  match st.cache.lookup object_type with
  | some entries => .ok (entries.lookup name, st, 0)
  | none =>
    match catalog object_type with
    | .error e => .error e
    | .ok entries => .ok (entries.lookup name, ⟨(object_type, entries) :: st.cache⟩, 1)

/-- Modelled from the spec: `get_custom_field_id` is the plain point lookup
through the resolver. -/
def get_custom_field_id (catalog : String → Except String (List (String × String)))
    (st : Resolver) (object_type name : String) :
    Except String (Option String × Resolver × Nat) :=
  resolve catalog st object_type name

/-- Modelled from the spec: the namespace transform applied to a resolved
Identifier for use as a payload key.  The concrete prefix string is
corroborated by the repository's call sites
(`import_leads_from_csv.py` line 47: `f"custom.\x7bpatient_navigator_field_id\x7d"`). -/
def prefixTransform (r : Option String) : Option String :=
  r.map (fun i => "custom." ++ i)

/-- Modelled from the spec: `get_prefixed_custom_field_id` — "a pure string
transform over the resolved Identifier, not a separate resolution path": it
resolves through the same `resolve` call and prepends the namespace prefix
to the found Identifier. -/
def get_prefixed_custom_field_id (catalog : String → Except String (List (String × String)))
    (st : Resolver) (object_type name : String) :
    Except String (Option String × Resolver × Nat) :=
  match resolve catalog st object_type name with
  | .error e => .error e
  | .ok (r, st', f) => .ok (prefixTransform r, st', f)

/-- Embeds the argparse result of `toggle_opportunity_discounts.py` lines
60–87: an invocation whose arguments parsed successfully. -/
structure ToggleArgs where
  prod : Bool
  max_opportunities : Int
  verbose : Bool
  dry_run : Bool
  updated_before_minutes : Int
deriving DecidableEq, Repr

/-- Observable interactions of `toggle_opportunity_discounts.main` with the
API layer, in program order: constructing the wrapper (line 99), the
resolver calls (lines 102–103), the search phase (line 165) and the update
phase (line 196, via `put_all`). -/
inductive ApiEvent
  | constructWrapper (api_key : String)
  | getCustomFieldId (object_type name : String)
  | getPrefixedCustomFieldId (object_type name : String)
  | search
  | putAll
deriving DecidableEq, Repr

/-- How a run of `toggle_opportunity_discounts.main` ends in the embedded
fragment: an unhandled NameError on an unbound Python name, the explicit
SystemExit of lines 94–98, or reaching the phases past line 99. -/
inductive ToggleOutcome
  | nameError (name : String)
  | systemExit
  | reachedApiPhase
deriving DecidableEq, Repr

/-- Embeds `toggle_opportunity_discounts.main` lines 90–99 statement by
statement.  The function-local scope is the list of names bound so far:
line 90 binds `env`; line 91, which would bind `api_key`, is commented out
in the source (`# api_key = get_api_key("api.close.com", f"...")`), so it
binds nothing; line 93 (`if not api_key:`) then evaluates the name
`api_key`, and an unbound name evaluates to a NameError.  The module scope
binds no `api_key` either (the imports at lines 1–6 bring in `argparse`,
`asyncio`, `Any`, `CloseApiWrapper` and the function `get_api_key` only).
Everything from line 99 on is represented by the events it would emit,
starting with the wrapper construction. -/
def toggleMain (args : ToggleArgs) : ToggleOutcome × List ApiEvent :=
  let scope : List (String × String) := [("env", if args.prod then "prod" else "dev")]
  match scope.lookup "api_key" with
  | none => (.nameError "api_key", [])
  | some api_key =>
    if api_key = "" then
      (.systemExit, [])
    else
      (.reachedApiPhase,
        [ApiEvent.constructWrapper api_key,
         ApiEvent.getCustomFieldId "opportunity" "Services",
         ApiEvent.getPrefixedCustomFieldId "opportunity" "Discounts",
         ApiEvent.search, ApiEvent.putAll])

/-- Transport stub for concrete checks: every write succeeds with an empty
returned record. -/
def wTransportOk : Op → WriteRequest → TransportResult := fun _ _ => .ok []

/-- Transport stub for concrete checks: the write against target "b" fails
with a transport-level error, every other write succeeds. -/
def wTransportSel : Op → WriteRequest → TransportResult :=
  fun _ r => if r.target_identifier = "b" then .transportError "network down" else .ok []

/-- Concrete request fixture. -/
def wReqA : WriteRequest := ⟨"a", []⟩

/-- Concrete request fixture. -/
def wReqB : WriteRequest := ⟨"b", []⟩

/-- Concrete one-field record fixture. -/
def wRec (s : String) : Record := [("id", s)]

/-- Remote stub for concrete checks: a single page with no continuation
cursor. -/
def wRemoteOnePage : Option String → FetchResponse := fun _ => .page ⟨[], none⟩

/-- Remote stub for concrete checks: every page carries the same cursor
"c" — a non-advancing remote. -/
def wRemoteLoop : Option String → FetchResponse := fun _ => .page ⟨[], some "c"⟩

/-- Remote stub for concrete checks: three pages chained by cursors c1 and
c2, the third with no cursor. -/
def wRemoteThree : Option String → FetchResponse := fun cur =>
  match cur with
  | none => .page ⟨[wRec "1"], some "c1"⟩
  | some "c1" => .page ⟨[wRec "2"], some "c2"⟩
  | some _ => .page ⟨[wRec "3"], none⟩

/-- Remote stub for concrete checks: pages of three records each, chained
forever. -/
def wRemoteSix : Option String → FetchResponse := fun cur =>
  match cur with
  | none => .page ⟨[wRec "1", wRec "2", wRec "3"], some "c1"⟩
  | some _ => .page ⟨[wRec "4", wRec "5", wRec "6"], some "c2"⟩

/-- Catalog stub for concrete checks: every object type has the single
custom field "Services" with identifier "cf_1". -/
def wCatalog : String → Except String (List (String × String)) :=
  fun _ => .ok [("Services", "cf_1")]

/-- Catalog stub for concrete checks: the catalog fetch always fails with a
transport error. -/
def wCatalogErr : String → Except String (List (String × String)) :=
  fun _ => .error "timeout"

/-- Flattening the slice partition recovers the request list (fuel form). -/
theorem sliceListAux_flatten (n : Nat) :
    ∀ (fuel : Nat) (l : List WriteRequest), l.length ≤ fuel →
      (sliceListAux n fuel l).flatten = l := by
  intro fuel
  induction fuel with
  | zero =>
    intro l hl
    have : l = [] := List.eq_nil_of_length_eq_zero (Nat.le_antisymm hl (Nat.zero_le _))
    subst this
    rfl
  | succ fuel ih =>
    intro l hl
    cases l with
    | nil => rfl
    | cons x xs =>
      have hdrop : (xs.drop (n - 1)).length ≤ fuel := by
        have h1 : (xs.drop (n - 1)).length ≤ xs.length := by
          rw [List.length_drop]; exact Nat.sub_le _ _
        have h2 : xs.length ≤ fuel := Nat.le_of_succ_le_succ hl
        exact Nat.le_trans h1 h2
      simp only [sliceListAux, List.flatten_cons, ih _ hdrop, List.cons_append,
        List.take_append_drop]

/-- Flattening the slice partition recovers the request list. -/
theorem sliceList_flatten (n : Nat) (l : List WriteRequest) :
    (sliceList n l).flatten = l :=
  sliceListAux_flatten n l.length l (Nat.le_refl _)

/-- Without the fail-fast override, every slice is dispatched and the
outcome stream is the concatenation of the processed slices. -/
theorem runSlices_false (transport : Op → WriteRequest → TransportResult)
    (arrive : List WriteOutcome → List WriteOutcome) (op : Op) :
    ∀ slices, runSlices transport arrive op false slices =
      ((slices.map (processSlice transport arrive op)).flatten, slices.length) := by
  intro slices
  induction slices with
  | nil => rfl
  | cons s rest ih =>
    simp only [runSlices, Bool.false_and, if_neg (Bool.false_ne_true), ih,
      List.map_cons, List.flatten_cons, List.length_cons]

/-- Every outcome the slice loop emits comes from processing one of the
given slices (whether or not fail-fast is set). -/
theorem runSlices_mem (transport : Op → WriteRequest → TransportResult)
    (arrive : List WriteOutcome → List WriteOutcome) (op : Op) (failFast : Bool) :
    ∀ slices o, o ∈ (runSlices transport arrive op failFast slices).1 →
      ∃ sl ∈ slices, o ∈ processSlice transport arrive op sl := by
  intro slices
  induction slices with
  | nil => intro o h; simp [runSlices] at h
  | cons s rest ih =>
    intro o h
    simp only [runSlices] at h
    by_cases hb : (failFast && (processSlice transport arrive op s).any isFailure) = true
    · rw [if_pos hb] at h
      exact ⟨s, List.mem_cons_self _ _, h⟩
    · rw [if_neg hb] at h
      rcases List.mem_append.mp h with h1 | h2
      · exact ⟨s, List.mem_cons_self _ _, h1⟩
      · rcases ih o h2 with ⟨sl, hsl, ho⟩
        exact ⟨sl, List.mem_cons_of_mem _ hsl, ho⟩

/-- When every arrival reordering is a permutation, the concatenation of the
processed slices is a permutation of the classification of the flattened
request list. -/
theorem processed_flatten_perm (transport : Op → WriteRequest → TransportResult)
    (arrive : List WriteOutcome → List WriteOutcome) (op : Op)
    (harr : ∀ l, (arrive l).Perm l) :
    ∀ slices : List (List WriteRequest),
      ((slices.map (processSlice transport arrive op)).flatten).Perm
        ((slices.flatten).map (classifyRequest op transport)) := by
  intro slices
  induction slices with
  | nil => simp
  | cons s rest ih =>
    simp only [List.map_cons, List.flatten_cons, List.map_append]
    exact (harr (s.map (classifyRequest op transport))).append ih

/-- Classification preserves the request's target identifier. -/
theorem classifyRequest_target (op : Op) (transport : Op → WriteRequest → TransportResult)
    (r : WriteRequest) :
    (classifyRequest op transport r).target = r.target_identifier := by
  unfold classifyRequest
  cases transport op r <;> rfl

/-- A successful fetch under a set results_limit returns at most that many
records. -/
theorem fetchLoop_ok_length (remote : Option String → FetchResponse) (m : Nat) :
    ∀ (fuel : Nat) (cursor : Option String) (acc : List Record) (count : Nat)
      (res : List Record) (c : Nat),
      fetchLoop remote (some m) fuel cursor acc count = (.ok res, c) →
      res.length ≤ m := by
  intro fuel
  induction fuel with
  | zero => intro cursor acc count res c h; simp [fetchLoop] at h
  | succ fuel ih =>
    intro cursor acc count res c h
    simp only [fetchLoop] at h
    cases hr : remote cursor with
    | fail e => simp [hr] at h
    | page p =>
      simp only [hr] at h
      cases hc : p.cursor with
      | none =>
        simp only [hc, Prod.mk.injEq, FetchResult.ok.injEq] at h
        rw [← h.1]
        simp only [truncate, List.length_take]
        exact Nat.min_le_left _ _
      | some cnext =>
        simp only [hc] at h
        by_cases hlim : limitReached (some m) (acc ++ p.records).length = true
        · rw [if_pos hlim] at h
          simp only [Prod.mk.injEq, FetchResult.ok.injEq] at h
          rw [← h.1]
          simp only [truncate, List.length_take]
          exact Nat.min_le_left _ _
        · rw [if_neg hlim] at h
          by_cases hcur : cursor = some cnext
          · rw [if_pos hcur] at h; simp at h
          · rw [if_neg hcur] at h
            exact ih _ _ _ _ _ h

/-- With advancing cursors, enough fuel is never exhausted: the fetch loop
always ends in a real result. -/
theorem fetchLoop_no_fuel_exhaustion (remote : Option String → FetchResponse)
    (results_limit : Option Nat) (rank : Option String → Nat)
    (hadv : Advancing remote rank) :
    ∀ (fuel : Nat) (cursor : Option String) (acc : List Record) (count : Nat),
      rank cursor < fuel →
      (fetchLoop remote results_limit fuel cursor acc count).1 ≠ FetchResult.outOfFuel := by
  intro fuel
  induction fuel with
  | zero => intro cursor acc count h; exact absurd h (Nat.not_lt_zero _)
  | succ fuel ih =>
    intro cursor acc count hrank
    simp only [fetchLoop]
    cases hr : remote cursor with
    | fail e => simp
    | page p =>
      cases hc : p.cursor with
      | none => simp [hc]
      | some cnext =>
        simp only [hc]
        by_cases hlim : limitReached results_limit (acc ++ p.records).length = true
        · rw [if_pos hlim]; simp
        · rw [if_neg hlim]
          by_cases hcur : cursor = some cnext
          · rw [if_pos hcur]; simp
          · rw [if_neg hcur]
            have hlt : rank (some cnext) < rank cursor := hadv cursor p hr cnext hc
            exact ih _ _ _ (Nat.lt_of_lt_of_le hlt (Nat.le_of_succ_le_succ hrank))

/-- Fail-fast stop point: as long as the already-dispatched slices produced
no failure, the loop proceeds; the first slice that produces a failure is
the last one dispatched, its outcomes are recorded in full, and the
remaining slices are never dispatched. -/
theorem runSlices_failFast (transport : Op → WriteRequest → TransportResult)
    (arrive : List WriteOutcome → List WriteOutcome) (op : Op) :
    ∀ (pre : List (List WriteRequest)) (s : List WriteRequest)
      (rest : List (List WriteRequest)),
      (∀ s' ∈ pre, (processSlice transport arrive op s').any isFailure = false) →
      (processSlice transport arrive op s).any isFailure = true →
      runSlices transport arrive op true (pre ++ s :: rest) =
        ((pre.map (processSlice transport arrive op)).flatten ++
          processSlice transport arrive op s, pre.length + 1) := by
  intro pre
  induction pre with
  | nil =>
    intro s rest _ hfail
    simp only [List.nil_append, runSlices, Bool.true_and, if_pos hfail,
      List.map_nil, List.flatten_nil, List.length_nil]
  | cons p ps ih =>
    intro s rest hok hfail
    have hp : (processSlice transport arrive op p).any isFailure = false :=
      hok p (List.mem_cons_self _ _)
    have hps : ∀ s' ∈ ps, (processSlice transport arrive op s').any isFailure = false :=
      fun s' hs' => hok s' (List.mem_cons_of_mem _ hs')
    have hrec := ih s rest hps hfail
    rw [List.cons_append]
    simp only [runSlices, Bool.true_and, hp, if_neg (Bool.false_ne_true), List.append_eq,
      hrec, List.map_cons, List.flatten_cons, List.length_cons, List.append_assoc]

/-- C1: for every sequence of WriteRequests submitted to the Batch Write
Executor's execute (update or delete), the returned pair
(successes, failures) satisfies len(successes) + len(failures) ==
len(requests), and there is exactly one WriteOutcome per submitted request:
no request is silently dropped and none is duplicated (the combined outcome
collection is a permutation of the per-request classifications).  Stated
for the executor's default mode, in which the fail-fast override is off,
over every within-slice arrival order. -/
theorem execute_outcome_partition
    (transport : Op → WriteRequest → TransportResult)
    (arrive : List WriteOutcome → List WriteOutcome) (op : Op)
    (slice_size : Nat) (requests : List WriteRequest)
    (successes failures : List WriteOutcome)
    (harr : ∀ l, (arrive l).Perm l)
    (hex : execute transport arrive op false slice_size requests =
      .ok (successes, failures)) :
    successes.length + failures.length = requests.length ∧
    (successes ++ failures).Perm (requests.map (classifyRequest op transport)) := by
  by_cases hn : slice_size = 0
  · simp [execute, hn] at hex
  · simp only [execute, if_neg hn, Except.ok.injEq, List.partition_eq_filter_filter,
      Prod.mk.injEq] at hex
    obtain ⟨hs, hf⟩ := hex
    subst hs
    subst hf
    have hperm0 :
        ((runSlices transport arrive op false (sliceList slice_size requests)).1.filter
            isSuccess ++
          (runSlices transport arrive op false (sliceList slice_size requests)).1.filter
            (not ∘ isSuccess)).Perm
          (runSlices transport arrive op false (sliceList slice_size requests)).1 := by
      have := List.filter_append_perm isSuccess
        (runSlices transport arrive op false (sliceList slice_size requests)).1
      simpa [Function.comp] using this
    have h1 : (runSlices transport arrive op false (sliceList slice_size requests)).1 =
        ((sliceList slice_size requests).map (processSlice transport arrive op)).flatten := by
      rw [runSlices_false]
    have h2 := processed_flatten_perm transport arrive op harr (sliceList slice_size requests)
    rw [sliceList_flatten] at h2
    have hmain := hperm0.trans (h1 ▸ h2)
    exact ⟨by simpa using hmain.length_eq, hmain⟩

/-- Witness for C1: a two-request batch with slice size 1, identity arrival
order and an always-succeeding Transport satisfies the hypotheses, and the
partition invariant holds at that input. -/
theorem execute_outcome_partition_witness :
    (∀ l : List WriteOutcome, (id l).Perm l) ∧
    execute wTransportOk id Op.update false 1 [wReqA, wReqB] =
      .ok ([.success "a" [], .success "b" []], []) ∧
    (([WriteOutcome.success "a" [], .success "b" []] : List WriteOutcome).length +
        ([] : List WriteOutcome).length = [wReqA, wReqB].length ∧
      (([WriteOutcome.success "a" [], .success "b" []] : List WriteOutcome) ++
          ([] : List WriteOutcome)).Perm
        ([wReqA, wReqB].map (classifyRequest Op.update wTransportOk))) :=
  ⟨fun l => List.Perm.refl l, rfl,
    execute_outcome_partition wTransportOk id Op.update 1 [wReqA, wReqB]
      [.success "a" [], .success "b" []] [] (fun l => List.Perm.refl l) rfl⟩

/-- C2: for every execution of the Batch Write Executor, each returned
outcome carries the target_identifier of the request that originated it (no
cross-wiring): every outcome in either collection is the classification of
one of the submitted requests and carries that request's
target_identifier.  The collections are ordered by outcome arrival rather
than input order: there is an execution (reversed arrival order) whose
success collection is ordered differently from the input sequence, so
callers must re-associate by target_identifier. -/
theorem execute_no_cross_wiring
    (transport : Op → WriteRequest → TransportResult)
    (arrive : List WriteOutcome → List WriteOutcome) (op : Op) (failFast : Bool)
    (slice_size : Nat) (requests : List WriteRequest)
    (successes failures : List WriteOutcome)
    (harr : ∀ l, (arrive l).Perm l)
    (hex : execute transport arrive op failFast slice_size requests =
      .ok (successes, failures)) :
    (∀ o ∈ successes ++ failures, ∃ r ∈ requests,
      o = classifyRequest op transport r ∧
      o.target = r.target_identifier) ∧
    (∃ (t : Op → WriteRequest → TransportResult)
       (a : List WriteOutcome → List WriteOutcome)
       (reqs : List WriteRequest) (s f : List WriteOutcome),
       (∀ l, (a l).Perm l) ∧
       execute t a Op.update false 10 reqs = .ok (s, f) ∧
       s.map WriteOutcome.target ≠ reqs.map WriteRequest.target_identifier) := by
  constructor
  · intro o ho
    by_cases hn : slice_size = 0
    · simp [execute, hn] at hex
    · simp only [execute, if_neg hn, Except.ok.injEq, List.partition_eq_filter_filter,
        Prod.mk.injEq] at hex
      obtain ⟨hs, hf⟩ := hex
      have houts : o ∈ (runSlices transport arrive op failFast
          (sliceList slice_size requests)).1 := by
        rcases List.mem_append.mp ho with h | h
        · exact List.mem_of_mem_filter (hs ▸ h)
        · exact List.mem_of_mem_filter (hf ▸ h)
      rcases runSlices_mem transport arrive op failFast _ o houts with ⟨sl, hsl, hosl⟩
      have homap : o ∈ sl.map (classifyRequest op transport) :=
        ((harr (sl.map (classifyRequest op transport))).mem_iff).mp hosl
      rcases List.mem_map.mp homap with ⟨r, hr, hcl⟩
      have hrreq : r ∈ requests := by
        have : r ∈ (sliceList slice_size requests).flatten :=
          List.mem_flatten.mpr ⟨sl, hsl, hr⟩
        rwa [sliceList_flatten] at this
      refine ⟨r, hrreq, hcl.symm, ?_⟩
      rw [← hcl]
      exact classifyRequest_target op transport r
  · exact ⟨wTransportOk, List.reverse, [wReqA, wReqB],
      [.success "b" [], .success "a" []], [],
      fun l => l.reverse_perm, rfl, by decide⟩

/-- Witness for C2: the concrete two-request execution of the C1 scenario
satisfies the hypotheses, and each of its outcomes carries its originating
request's target identifier. -/
theorem execute_no_cross_wiring_witness :
    (∀ l : List WriteOutcome, (id l).Perm l) ∧
    execute wTransportOk id Op.update false 1 [wReqA, wReqB] =
      .ok ([.success "a" [], .success "b" []], []) ∧
    ((∀ o ∈ ([WriteOutcome.success "a" [], .success "b" []] : List WriteOutcome) ++
        ([] : List WriteOutcome), ∃ r ∈ [wReqA, wReqB],
        o = classifyRequest Op.update wTransportOk r ∧
        o.target = r.target_identifier) ∧
      (∃ (t : Op → WriteRequest → TransportResult)
         (a : List WriteOutcome → List WriteOutcome)
         (reqs : List WriteRequest) (s f : List WriteOutcome),
         (∀ l, (a l).Perm l) ∧
         execute t a Op.update false 10 reqs = .ok (s, f) ∧
         s.map WriteOutcome.target ≠ reqs.map WriteRequest.target_identifier)) :=
  ⟨fun l => List.Perm.refl l, rfl,
    execute_no_cross_wiring wTransportOk id Op.update false 1 [wReqA, wReqB]
      [.success "a" [], .success "b" []] [] (fun l => List.Perm.refl l) rfl⟩

/-- C9: for every execute run with the caller-supplied fail-fast override
set, once any request's outcome is a failure no not-yet-dispatched slice is
ever dispatched afterwards — the outcome stream consists of the cleanly
completed leading slices plus, in full, the slice in flight when the
failure occurred (its outcomes, successes included, are still recorded) —
and the slice loop stops after that slice.  Without fail-fast, an
individual failure never aborts the batch: every slice is dispatched and
every outcome is recorded. -/
theorem execute_fail_fast
    (transport : Op → WriteRequest → TransportResult)
    (arrive : List WriteOutcome → List WriteOutcome) (op : Op)
    (slice_size : Nat) (requests : List WriteRequest)
    (hn : slice_size ≠ 0) :
    (∀ pre s rest, sliceList slice_size requests = pre ++ s :: rest →
      (∀ s' ∈ pre, (processSlice transport arrive op s').any isFailure = false) →
      (processSlice transport arrive op s).any isFailure = true →
      execute transport arrive op true slice_size requests =
        .ok (((pre.map (processSlice transport arrive op)).flatten ++
          processSlice transport arrive op s).partition isSuccess) ∧
      (runSlices transport arrive op true (pre ++ s :: rest)).2 = pre.length + 1) ∧
    (execute transport arrive op false slice_size requests =
      .ok ((((sliceList slice_size requests).map
        (processSlice transport arrive op)).flatten).partition isSuccess)) := by
  constructor
  · intro pre s rest hslices hok hfail
    have hrun := runSlices_failFast transport arrive op pre s rest hok hfail
    constructor
    · simp only [execute, if_neg hn, hslices, hrun]
    · rw [hrun]
  · simp only [execute, if_neg hn, runSlices_false]

/-- Witness for C9: two single-request slices where the second request
fails on a selective Transport; with fail-fast set only the first two
slices are dispatched (there is no third), the failing slice's outcome is
recorded, and without fail-fast both outcomes are recorded. -/
theorem execute_fail_fast_witness :
    (sliceList 1 [wReqA, wReqB] = [[wReqA]] ++ [wReqB] :: [] ∧
      (∀ s' ∈ [[wReqA]], (processSlice wTransportSel id Op.update s').any isFailure = false) ∧
      (processSlice wTransportSel id Op.update [wReqB]).any isFailure = true) ∧
    (execute wTransportSel id Op.update true 1 [wReqA, wReqB] =
      .ok ((([[wReqA]].map (processSlice wTransportSel id Op.update)).flatten ++
        processSlice wTransportSel id Op.update [wReqB]).partition isSuccess) ∧
      (runSlices wTransportSel id Op.update true ([[wReqA]] ++ [wReqB] :: [])).2 =
        [[wReqA]].length + 1) ∧
    execute wTransportSel id Op.update false 1 [wReqA, wReqB] =
      .ok ((((sliceList 1 [wReqA, wReqB]).map
        (processSlice wTransportSel id Op.update)).flatten).partition isSuccess) :=
  ⟨⟨rfl, by decide, by decide⟩,
    (execute_fail_fast wTransportSel id Op.update 1 [wReqA, wReqB]
      (by decide)).1 [[wReqA]] [wReqB] [] rfl (by decide) (by decide),
    (execute_fail_fast wTransportSel id Op.update 1 [wReqA, wReqB] (by decide)).2⟩

/-- C3: for every fetch_all call, if the remote system returns pages P1
(with cursor c1), P2 (with cursor c2) and P3 (with no cursor), the result
is exactly P1.records ++ P2.records ++ P3.records in that order — page and
intra-page ordering preserved — and the fetch loop stops at the first page
whose continuation cursor is absent, after exactly three page requests. -/
theorem fetch_all_three_pages (remote : Option String → FetchResponse)
    (r1 r2 r3 : List Record) (c1 c2 : String)
    (h1 : remote none = .page ⟨r1, some c1⟩)
    (h2 : remote (some c1) = .page ⟨r2, some c2⟩)
    (h3 : remote (some c2) = .page ⟨r3, none⟩)
    (hne : c1 ≠ c2) (fuel : Nat) :
    fetch_all remote none (fuel + 3) = (.ok (r1 ++ r2 ++ r3), 3) := by
  simp [fetch_all, fetchLoop, h1, h2, h3, hne, limitReached, truncate]

/-- Witness for C3: the three-page remote stub satisfies the hypotheses and
the fetch returns its three records in page order using three requests. -/
theorem fetch_all_three_pages_witness :
    (wRemoteThree none = .page ⟨[wRec "1"], some "c1"⟩ ∧
      wRemoteThree (some "c1") = .page ⟨[wRec "2"], some "c2"⟩ ∧
      wRemoteThree (some "c2") = .page ⟨[wRec "3"], none⟩ ∧ "c1" ≠ "c2") ∧
    fetch_all wRemoteThree none 3 = (.ok ([wRec "1"] ++ [wRec "2"] ++ [wRec "3"]), 3) :=
  ⟨⟨rfl, rfl, rfl, by decide⟩,
    fetch_all_three_pages wRemoteThree [wRec "1"] [wRec "2"] [wRec "3"] "c1" "c2"
      rfl rfl rfl (by decide) 0⟩

/-- C4: for every fetch_all call with results_limit set to n, the returned
sequence contains at most n records, the leading ones in page order; in
particular, with results_limit = 5 over pages of sizes 3, 3, 3, exactly the
first 5 records are returned and only 2 page requests are issued — no
further page request once the limit is satisfied. -/
theorem fetch_all_results_limit (remote : Option String → FetchResponse)
    (r1 r2 : List Record) (c1 c2 : String)
    (hlen1 : r1.length = 3) (hlen2 : r2.length = 3)
    (h1 : remote none = .page ⟨r1, some c1⟩)
    (h2 : remote (some c1) = .page ⟨r2, some c2⟩)
    (fuel : Nat) :
    fetch_all remote (some 5) (fuel + 2) = (.ok ((r1 ++ r2).take 5), 2) ∧
    (∀ (m f : Nat) (res : List Record) (c : Nat),
      fetch_all remote (some m) f = (.ok res, c) → res.length ≤ m) := by
  constructor
  · have hstop : limitReached (some 5) (r1.length + r2.length) = true := by
      simp [limitReached, hlen1, hlen2]
    have hgo : limitReached (some 5) r1.length = false := by
      simp [limitReached, hlen1]
    simp [fetch_all, fetchLoop, h1, h2, hgo, hstop, truncate]
  · intro m f res c h
    exact fetchLoop_ok_length remote m f none [] 0 res c h

/-- Witness for C4: the six-record remote stub (pages of size 3 chained by
cursors) satisfies the hypotheses; with results_limit 5 the fetch returns
the first five records using two requests. -/
theorem fetch_all_results_limit_witness :
    (([wRec "1", wRec "2", wRec "3"] : List Record).length = 3 ∧
      ([wRec "4", wRec "5", wRec "6"] : List Record).length = 3 ∧
      wRemoteSix none = .page ⟨[wRec "1", wRec "2", wRec "3"], some "c1"⟩ ∧
      wRemoteSix (some "c1") = .page ⟨[wRec "4", wRec "5", wRec "6"], some "c2"⟩) ∧
    fetch_all wRemoteSix (some 5) 2 =
      (.ok (([wRec "1", wRec "2", wRec "3"] ++ [wRec "4", wRec "5", wRec "6"]).take 5), 2) :=
  ⟨⟨rfl, rfl, rfl, rfl⟩,
    (fetch_all_results_limit wRemoteSix [wRec "1", wRec "2", wRec "3"]
      [wRec "4", wRec "5", wRec "6"] "c1" "c2" rfl rfl rfl rfl 0).1⟩

/-- C5: for every fetch_all run, if two consecutive page responses carry
the identical continuation cursor — the loop is at cursor c and the page
fetched with c again carries cursor c — the fetch aborts with the fatal
ProtocolViolation after that response instead of issuing further requests;
and under the remote contract of monotonically advancing cursors the
pagination loop never runs forever: with fuel above the cursor rank the
loop never exhausts its fuel, so every fetch ends in the accumulated
sequence or an error. -/
theorem fetch_all_protocol_violation (remote : Option String → FetchResponse)
    (results_limit : Option Nat) :
    (∀ (c : String) (recs acc : List Record) (cnt fuel : Nat),
      remote (some c) = .page ⟨recs, some c⟩ →
      limitReached results_limit (acc ++ recs).length = false →
      fetchLoop remote results_limit (fuel + 1) (some c) acc cnt =
        (.protocolViolation, cnt + 1)) ∧
    (∀ rank, Advancing remote rank →
      ∀ (fuel : Nat) (cursor : Option String) (acc : List Record) (cnt : Nat),
        rank cursor < fuel →
        (fetchLoop remote results_limit fuel cursor acc cnt).1 ≠ FetchResult.outOfFuel) := by
  constructor
  · intro c recs acc cnt fuel hrep hlim
    rw [List.length_append] at hlim
    simp [fetchLoop, hrep, hlim]
  · exact fetchLoop_no_fuel_exhaustion remote results_limit

/-- Witness for C5: the non-advancing remote stub repeats cursor "c" and
the loop aborts with ProtocolViolation on the repeated cursor; the
one-page remote stub is advancing under the constant rank and never
exhausts its fuel. -/
theorem fetch_all_protocol_violation_witness :
    (wRemoteLoop (some "c") = .page ⟨[], some "c"⟩ ∧
      limitReached none (([] : List Record) ++ []).length = false ∧
      fetchLoop wRemoteLoop none 1 (some "c") [] 0 = (.protocolViolation, 1)) ∧
    (Advancing wRemoteOnePage (fun _ => 0) ∧
      (fetchLoop wRemoteOnePage none 1 none [] 0).1 ≠ FetchResult.outOfFuel) := by
  have hadv : Advancing wRemoteOnePage (fun _ => 0) := by
    intro cur p hp c hc
    simp only [wRemoteOnePage, FetchResponse.page.injEq] at hp
    rw [← hp] at hc
    simp at hc
  exact ⟨⟨rfl, rfl,
    (fetch_all_protocol_violation wRemoteLoop none).1 "c" [] [] 0 0 rfl rfl⟩,
    hadv,
    (fetch_all_protocol_violation wRemoteOnePage none).2 (fun _ => 0) hadv 1 none [] 0
      (by decide)⟩

/-- C6: for every resolver state, object_type and name, if a resolve call
returns an Identifier lookup with state st1, then resolving the same key
again returns the identical result with no new catalog fetch (fetch count
0) and an unchanged state; the first call per object_type performs exactly
one catalog fetch when the object_type is uncached (and at most one in
general), and every subsequent lookup for any name on that object_type is a
cache hit with no new network round-trip. -/
theorem resolve_memoized (catalog : String → Except String (List (String × String)))
    (st : Resolver) (ot name : String)
    (r1 : Option String) (st1 : Resolver) (f1 : Nat)
    (h : resolve catalog st ot name = .ok (r1, st1, f1)) :
    resolve catalog st1 ot name = .ok (r1, st1, 0) ∧
    f1 ≤ 1 ∧
    (st.cache.lookup ot = none → f1 = 1) ∧
    (st.cache.lookup ot ≠ none → f1 = 0) ∧
    (∀ otherName, ∃ r2, resolve catalog st1 ot otherName = .ok (r2, st1, 0)) := by
  cases hlook : st.cache.lookup ot with
  | some entries =>
    simp only [resolve, hlook, Except.ok.injEq, Prod.mk.injEq] at h
    obtain ⟨hr, hst, hf⟩ := h
    subst hr
    subst hst
    subst hf
    refine ⟨by simp [resolve, hlook], by decide, ?_, ?_, ?_⟩
    · intro habs
      simp at habs
    · intro _
      rfl
    · intro otherName
      exact ⟨entries.lookup otherName, by simp [resolve, hlook]⟩
  | none =>
    simp only [resolve, hlook] at h
    cases hc : catalog ot with
    | error e => rw [hc] at h; cases h
    | ok entries =>
      rw [hc] at h
      simp only [Except.ok.injEq, Prod.mk.injEq] at h
      obtain ⟨hr, hst, hf⟩ := h
      subst hr
      subst hst
      subst hf
      have hhit : (Resolver.mk ((ot, entries) :: st.cache)).cache.lookup ot = some entries := by
        simp [List.lookup]
      refine ⟨by simp [resolve, hhit], by decide, ?_, ?_, ?_⟩
      · intro _
        rfl
      · intro habs
        exact absurd rfl habs
      · intro otherName
        exact ⟨entries.lookup otherName, by simp [resolve, hhit]⟩

/-- Witness for C6: resolving "Services" on an empty resolver against the
stub catalog performs one fetch; the repeated call is a cache hit with the
identical Identifier and zero fetches. -/
theorem resolve_memoized_witness :
    resolve wCatalog ⟨[]⟩ "opportunity" "Services" =
      .ok (some "cf_1", ⟨[("opportunity", [("Services", "cf_1")])]⟩, 1) ∧
    (resolve wCatalog ⟨[("opportunity", [("Services", "cf_1")])]⟩ "opportunity" "Services" =
      .ok (some "cf_1", ⟨[("opportunity", [("Services", "cf_1")])]⟩, 0) ∧
     1 ≤ 1 ∧
     ((⟨[]⟩ : Resolver).cache.lookup "opportunity" = none → 1 = 1) ∧
     ((⟨[]⟩ : Resolver).cache.lookup "opportunity" ≠ none → 1 = 0) ∧
     (∀ otherName, ∃ r2,
       resolve wCatalog ⟨[("opportunity", [("Services", "cf_1")])]⟩ "opportunity" otherName =
         .ok (r2, ⟨[("opportunity", [("Services", "cf_1")])]⟩, 0))) :=
  ⟨rfl, resolve_memoized wCatalog ⟨[]⟩ "opportunity" "Services"
    (some "cf_1") ⟨[("opportunity", [("Services", "cf_1")])]⟩ 1 rfl⟩

/-- C7: for every object_type and name, get_prefixed_custom_field_id is
exactly the pure string transform prepending "custom." to the Identifier
returned by get_custom_field_id: the two call paths go through the same
resolve call, agree on the underlying Identifier, resolver state and fetch
count, and the prefixed variant performs no separate resolution. -/
theorem get_prefixed_is_pure_transform
    (catalog : String → Except String (List (String × String)))
    (st : Resolver) (ot name : String) :
    get_prefixed_custom_field_id catalog st ot name =
      (get_custom_field_id catalog st ot name).map
        (fun res => (prefixTransform res.1, res.2)) ∧
    (∀ r st' f, resolve catalog st ot name = .ok (r, st', f) →
      get_custom_field_id catalog st ot name = .ok (r, st', f) ∧
      get_prefixed_custom_field_id catalog st ot name =
        .ok (r.map (fun i => "custom." ++ i), st', f)) := by
  constructor
  · unfold get_prefixed_custom_field_id get_custom_field_id
    cases resolve catalog st ot name with
    | error e => rfl
    | ok triple => rfl
  · intro r st' f hres
    unfold get_prefixed_custom_field_id get_custom_field_id
    rw [hres]
    exact ⟨rfl, rfl⟩

/-- Witness for C7: at the stub catalog on an empty resolver, the plain
lookup returns "cf_1" and the prefixed variant returns "custom.cf_1" with
the same state and fetch count. -/
theorem get_prefixed_is_pure_transform_witness :
    resolve wCatalog ⟨[]⟩ "opportunity" "Services" =
      .ok (some "cf_1", ⟨[("opportunity", [("Services", "cf_1")])]⟩, 1) ∧
    (get_custom_field_id wCatalog ⟨[]⟩ "opportunity" "Services" =
      .ok (some "cf_1", ⟨[("opportunity", [("Services", "cf_1")])]⟩, 1) ∧
     get_prefixed_custom_field_id wCatalog ⟨[]⟩ "opportunity" "Services" =
      .ok ((some "cf_1").map (fun i => "custom." ++ i),
        ⟨[("opportunity", [("Services", "cf_1")])]⟩, 1)) :=
  ⟨rfl, (get_prefixed_is_pure_transform wCatalog ⟨[]⟩ "opportunity" "Services").2
    (some "cf_1") ⟨[("opportunity", [("Services", "cf_1")])]⟩ 1 rfl⟩

/-- C8: for every resolver lookup of a name missing from the remote
catalog, resolve returns the "not found" sentinel (a successful result
carrying none) and does not raise; a transport failure of the catalog fetch
instead propagates to the caller as an error, and an error result can only
arise from a transport failure — the two outcomes are distinct. -/
theorem resolve_not_found_sentinel
    (catalog : String → Except String (List (String × String)))
    (st : Resolver) (ot name : String)
    (huncached : st.cache.lookup ot = none) :
    (∀ entries, catalog ot = .ok entries → entries.lookup name = none →
      resolve catalog st ot name = .ok (none, ⟨(ot, entries) :: st.cache⟩, 1)) ∧
    (∀ e, catalog ot = .error e → resolve catalog st ot name = .error e) ∧
    (∀ e, resolve catalog st ot name = .error e → catalog ot = .error e) := by
  refine ⟨?_, ?_, ?_⟩
  · intro entries hcat hmiss
    simp [resolve, huncached, hcat, hmiss]
  · intro e hcat
    simp [resolve, huncached, hcat]
  · intro e hres
    simp only [resolve, huncached] at hres
    cases hc : catalog ot with
    | error e' => rw [hc] at hres; cases hres; rfl
    | ok entries => rw [hc] at hres; cases hres

/-- Witness for C8: on an empty resolver, looking up a name absent from the
stub catalog returns the sentinel none inside a successful result, while
the failing catalog stub makes resolve propagate the error "timeout". -/
theorem resolve_not_found_sentinel_witness :
    ((⟨[]⟩ : Resolver).cache.lookup "lead" = none ∧
      wCatalog "lead" = .ok [("Services", "cf_1")] ∧
      List.lookup "Missing" [("Services", "cf_1")] = none ∧
      wCatalogErr "lead" = .error "timeout") ∧
    resolve wCatalog ⟨[]⟩ "lead" "Missing" =
      .ok (none, ⟨[("lead", [("Services", "cf_1")])]⟩, 1) ∧
    resolve wCatalogErr ⟨[]⟩ "lead" "Missing" = .error "timeout" :=
  ⟨⟨rfl, rfl, rfl, rfl⟩,
    (resolve_not_found_sentinel wCatalog ⟨[]⟩ "lead" "Missing" rfl).1
      [("Services", "cf_1")] rfl rfl,
    (resolve_not_found_sentinel wCatalogErr ⟨[]⟩ "lead" "Missing" rfl).2.1 "timeout" rfl⟩

/-- C10: for every invocation of the toggle_opportunity_discounts script
whose arguments parse successfully, main raises an unhandled NameError at
the `if not api_key` check — before a CloseApiWrapper is constructed and
before any Transport call is made (the emitted API-event trace is empty),
because the assignment to api_key at line 91 is commented out; the script
can never reach the search or update phase. -/
theorem toggleMain_name_error (args : ToggleArgs) :
    toggleMain args = (.nameError "api_key", []) := by
  have hbeq : ("api_key" == "env") = false := by decide
  simp [toggleMain, List.lookup, hbeq]
